import Mathlib

/-!
Verification development for the geminiVenv audio-QA batch pipeline.

The repository contains three near-duplicate Python scripts that transcribe
recorded calls with a generative model, analyze the transcript against a QA
rubric, and aggregate per-folder JSON reports:

  * `ImprovedVersionFinal.py` — sequential batches with throttling, tenacity
    retry around both remote calls, per-subfolder reports;
  * `process-audio-transcribe.py` — a variant without retry whose success
    results omit the transcription;
  * `recentAsPerHuzaifa-upgraded.py` — a variant that records failures in a
    `failed_files` list and retries them in a second pass.

The embedding below is shallow: every remote call is represented by an
oracle describing the outcome of each attempt (an environment record), the
`json.loads` standard-library function is an abstract parameter
`parse : String → Except String Json`, Python exceptions are `Except.error`
carrying the stringified message, Python dicts are ordered association
lists, and wall-clock durations are abstract `Nat` tick counts supplied as
parameters.  Control flow (try/except, retry loops, batching, aggregation)
is translated statement by statement from the sources.
-/

/-- JSON values, as produced by `json.loads` on the analysis response. -/
inductive Json where
  | str (s : String)
  | num (n : Int)
  | bool (b : Bool)
  | null
  | arr (xs : List Json)
  | obj (fields : List (String × Json))

/-- Python `d[k]` on a parsed JSON value: a `KeyError` when the key is
absent, a `TypeError` when the value is not an object.  Error messages are
modelled as short non-empty strings. -/
def Json.get (j : Json) (k : String) : Except String Json :=
  match j with
  | Json.obj fields =>
    match fields.lookup k with
    | some v => Except.ok v
    | none => Except.error ("KeyError: " ++ k)
  | _ => Except.error ("TypeError: value is not subscriptable with key " ++ k)

/-- Values stored in the Python result dictionaries. -/
inductive PyVal where
  | vStr (s : String)
  | vBool (b : Bool)
  | vNat (n : Nat)
  | vJson (j : Json)
  | vDict (fields : List (String × PyVal))

/-- A Python dict with string keys, in insertion order. -/
abbrev PyDict := List (String × PyVal)

/-- Truthiness of `r["Success"]` as used by the aggregation code; the
pipelines only ever store booleans under this key. -/
def isSuccessTrue (d : PyDict) : Bool :=
  match d.lookup "Success" with
  | some (PyVal.vBool b) => b
  | _ => false

/-- Split a character list at every occurrence of `c`. -/
def splitCharAux (c : Char) : List Char → List Char → List (List Char)
  | [], acc => [acc.reverse]
  | x :: xs, acc =>
    if x = c then acc.reverse :: splitCharAux c xs [] else splitCharAux c xs (x :: acc)

/-- Split a path into its `/`-separated components (the scripts run on
POSIX-style relative paths produced by `os.path.join`/`os.walk`). -/
def splitSlash (s : String) : List String :=
  (splitCharAux '/' s.data []).map (fun cs => String.mk cs)

/-- Python `os.path.basename` for the slash-separated paths the scripts
build: the component after the last separator. -/
def basename (p : String) : String :=
  ((splitSlash p).getLast?).getD ""

/-- Python `str.strip()`: drop whitespace from both ends. -/
def pyStrip (s : String) : String :=
  String.mk (((s.data.dropWhile Char.isWhitespace).reverse.dropWhile Char.isWhitespace).reverse)

/-- One pass of the Python loop `for i in range(0, len(xs), bs)` slicing
`xs[i:i+bs]`: contiguous chunks of size at most `bs`.  The fuel argument is
the list length; `bs = 0` never occurs (Python would raise in `range`). -/
def chunksGo (bs : Nat) : Nat → List α → List (List α)
  | 0, _ => []
  | _, [] => []
  | fuel + 1, x :: xs => ((x :: xs).take bs) :: chunksGo bs fuel ((x :: xs).drop bs)

/-- Contiguous batches of size at most `bs` (last batch may be smaller). -/
def chunks (bs : Nat) (xs : List α) : List (List α) :=
  chunksGo bs xs.length xs

/-- Embeds tenacity `@retry(stop=stop_after_attempt(maxA), reraise=True)`
applied to a zero-argument operation: `op a` is the outcome of attempt `a`
(1-based).  `retryGo op a n` runs up to `n` further attempts starting at
attempt `a`, returning the result together with the number of calls made;
with `reraise=True` the error of the final attempt is re-raised unchanged. -/
def retryGo (op : Nat → Except String α) : Nat → Nat → Except String α × Nat
  | attempt, 0 => (op attempt, 1)
  | attempt, 1 => (op attempt, 1)
  | attempt, n + 2 =>
    match op attempt with
    | Except.ok v => (Except.ok v, 1)
    | Except.error _ =>
      let r := retryGo op (attempt + 1) (n + 1)
      (r.1, r.2 + 1)

/-- The retry wrapper: at most `maxAttempts` calls, first success returned,
final failure re-raised unchanged. -/
def retryCall (maxAttempts : Nat) (op : Nat → Except String α) : Except String α × Nat :=
  retryGo op 1 maxAttempts

/-- Embeds tenacity `wait_exponential(multiplier, min, max, exp_base=2)`:
the sleep inserted after failed attempt number `attempt`, namely
`max(max(0, min), min(multiplier * exp_base^(attempt-1), max))`. -/
def waitExponential (multiplier minW maxW expBase attempt : Nat) : Nat :=
  Nat.max (Nat.max 0 minW) (Nat.min (multiplier * expBase ^ (attempt - 1)) maxW)

/-- The wait configuration used at both remote call sites in
`ImprovedVersionFinal.py`: `wait_exponential(multiplier=1, min=4, max=10)`. -/
def retryWait (attempt : Nat) : Nat :=
  waitExponential 1 4 10 2 attempt

/-- Modelled from the spec wording for comparison: the wait is
`min(max_wait, base * 2^(n-1))`, clamped to the `[min_wait, max_wait]`
window. -/
def specBackoffWait (base minW maxW n : Nat) : Nat :=
  Nat.max minW (Nat.min (Nat.min maxW (base * 2 ^ (n - 1))) maxW)

namespace ImprovedVersionFinal

/-- Oracle for the remote outcomes observed while processing one audio
file: `transcribeAttempt a` is the outcome of the `a`-th attempt of the
`transcribe_audio` body (an exception message, or the `response.text`
optional string), and `analyzeAttempt a` likewise for `analyze_transcript`
(the `generate_content` response text of the `a`-th attempt). -/
structure FileEnv where
  transcribeAttempt : Nat → Except String (Option String)
  analyzeAttempt : Nat → Except String (Option String)

/-- One attempt of the `transcribe_audio` body: a raised exception is
re-raised after logging; otherwise `(response.text or "").strip()` is
returned, with no emptiness check. -/
def transcribeOnce (resp : Except String (Option String)) : Except String String :=
  match resp with
  | Except.error m => Except.error m
  | Except.ok t => Except.ok (pyStrip (t.getD ""))

/-- `transcribe_audio` under its tenacity decorator
(`stop_after_attempt(3)`, `reraise=True`): the result together with the
number of attempts performed. -/
def transcribe_audio (env : FileEnv) : Except String String × Nat :=
  retryCall 3 (fun a => transcribeOnce (env.transcribeAttempt a))

/-- One attempt of the `analyze_transcript` body: a raised exception is
re-raised; a missing or empty `response.text` raises
`ValueError("No response text from analysis model")`; otherwise the text is
fed to `json.loads` (the abstract `parse`). -/
def analyzeOnce (parse : String → Except String Json)
    (resp : Except String (Option String)) : Except String Json :=
  match resp with
  | Except.error m => Except.error m
  | Except.ok none => Except.error "No response text from analysis model"
  | Except.ok (some t) =>
    if t = "" then Except.error "No response text from analysis model" else parse t

/-- `analyze_transcript` under its tenacity decorator. -/
def analyze_transcript (parse : String → Except String Json) (env : FileEnv) :
    Except String Json × Nat :=
  retryCall 3 (fun a => analyzeOnce parse (env.analyzeAttempt a))

/-- The dictionary returned by `process_file` when both stages succeed:
note that the computed `total_time` is not included. -/
def successDict (file_path transcript : String) (cs ev : Json) : PyDict :=
  [("FileName", PyVal.vStr (basename file_path)),
   ("FilePath", PyVal.vStr file_path),
   ("Success", PyVal.vBool true),
   ("Transcription", PyVal.vStr transcript),
   ("CallSummary", PyVal.vJson cs),
   ("QA_Evaluation", PyVal.vJson ev)]

/-- The dictionary returned by the `except` branch of `process_file`, with
the elapsed time recorded under `Timing.TotalTime`. -/
def failDict (file_path err : String) (elapsed : Nat) : PyDict :=
  [("FileName", PyVal.vStr (basename file_path)),
   ("FilePath", PyVal.vStr file_path),
   ("Success", PyVal.vBool false),
   ("Error", PyVal.vStr err),
   ("Timing", PyVal.vDict [("TotalTime", PyVal.vNat elapsed)])]

/-- `process_file`: transcription, throttle, analysis, throttle, then the
success dictionary (the two key accesses on the parsed JSON may raise); any
exception from the body is caught and converted into `failDict`.  `elapsed`
is the abstract wall-clock duration measured at the catch site. -/
def process_file (parse : String → Except String Json) (env : FileEnv)
    (elapsed : Nat) (file_path : String) : PyDict :=
  match (transcribe_audio env).1 with
  | Except.error e => failDict file_path e elapsed
  | Except.ok transcript =>
    match (analyze_transcript parse env).1 with
    | Except.error e => failDict file_path e elapsed
    | Except.ok qaJson =>
      match Json.get qaJson "call_summary" with
      | Except.error e => failDict file_path e elapsed
      | Except.ok cs =>
        match Json.get qaJson "qa_evaluation" with
        | Except.error e => failDict file_path e elapsed
        | Except.ok ev => successDict file_path transcript cs ev

/-- `process_batch`: the files of one batch processed one at a time, each
result appended in order (the inter-file sleep has no semantic effect). -/
def process_batch (parse : String → Except String Json) (envOf : String → FileEnv)
    (elapsedOf : String → Nat) (files : List String) : List PyDict :=
  files.map (fun f => process_file parse (envOf f) (elapsedOf f) f)

/-- The batching loop of `main` over one folder: slices of `batch_size`
files, each batch processed in order and extended onto `all_results`. -/
def mainProcessAll (parse : String → Except String Json) (envOf : String → FileEnv)
    (elapsedOf : String → Nat) (batch_size : Nat) (files : List String) : List PyDict :=
  ((chunks batch_size files).map (process_batch parse envOf elapsedOf)).flatten

/-- The per-folder summary document written by `main`. -/
structure FolderReport where
  TotalFiles : Nat
  SuccessfulFiles : Nat
  FailedFiles : Nat
  Results : List PyDict

/-- The summary `main` builds for one subdirectory: `total_files` is the
number of discovered audio files, the counters count results by the truth
of `r["Success"]`, and the configured `batch_size` is 10. -/
def mainFolderReport (parse : String → Except String Json) (envOf : String → FileEnv)
    (elapsedOf : String → Nat) (audio_files : List String) : FolderReport :=
  let allResults := mainProcessAll parse envOf elapsedOf 10 audio_files
  { TotalFiles := audio_files.length
    SuccessfulFiles := allResults.countP (fun r => isSuccessTrue r)
    FailedFiles := allResults.countP (fun r => !(isSuccessTrue r))
    Results := allResults }

/-- The per-subdirectory behaviour of `main`: folders with no audio files
are skipped (`if not audio_files: continue`), folders whose result list is
empty are skipped (`if not all_results: continue`), and otherwise the
summary is written. -/
def mainFolderRun (parse : String → Except String Json) (envOf : String → FileEnv)
    (elapsedOf : String → Nat) (audio_files : List String) : Option FolderReport :=
  if audio_files.isEmpty then none
  else
    let rep := mainFolderReport parse envOf elapsedOf audio_files
    if rep.Results.isEmpty then none else some rep

/-- The output path `main` writes a folder report to:
`output/{os.path.basename(subdir)}.json`. -/
def outputPath (subdir : String) : String :=
  "output/" ++ basename subdir ++ ".json"

/-- The sequence of report writes performed by one run of `main`: for each
subdirectory, in discovery order, the report (when one is produced) is
written to `outputPath`. -/
def mainRunWrites (parse : String → Except String Json) (envOf : String → FileEnv)
    (elapsedOf : String → Nat) (filesOf : String → List String)
    (subdirs : List String) : List (String × FolderReport) :=
  subdirs.filterMap (fun d =>
    (mainFolderRun parse envOf elapsedOf (filesOf d)).map (fun rep => (outputPath d, rep)))

end ImprovedVersionFinal

namespace ProcessAudioTranscribe

/-- Oracle for the remote outcomes of one `process_file` call in
`process-audio-transcribe.py` (this variant performs no retries):
`transcribeResp` is the outcome of the transcription call up to
`response.text` (upload failures folded into the raised message), and
`analyzeResp` the analysis call outcome up to `response.text`. -/
structure PatEnv where
  transcribeResp : Except String (Option String)
  analyzeResp : Except String (Option String)

/-- `transcribe_audio` of this variant: `response.text.strip()` raises an
`AttributeError` when the text is `None`; otherwise the stripped text is
returned with no emptiness check. -/
def transcribe_audio (env : PatEnv) : Except String String :=
  match env.transcribeResp with
  | Except.error m => Except.error m
  | Except.ok none => Except.error "AttributeError: NoneType object has no attribute strip"
  | Except.ok (some t) => Except.ok (pyStrip t)

/-- `analyze_transcript` of this variant: `json.loads(response.text)`
raises a `TypeError` when the text is `None`, otherwise parses it. -/
def analyze_transcript (parse : String → Except String Json) (env : PatEnv) :
    Except String Json :=
  match env.analyzeResp with
  | Except.error m => Except.error m
  | Except.ok none => Except.error "TypeError: the JSON object must be str not NoneType"
  | Except.ok (some t) => parse t

/-- The failure dictionary of this variant (no timing field). -/
def failDict (file_path err : String) : PyDict :=
  [("FileName", PyVal.vStr (basename file_path)),
   ("FilePath", PyVal.vStr file_path),
   ("Success", PyVal.vBool false),
   ("Error", PyVal.vStr err)]

/-- The success dictionary of this variant: the transcript is computed but
not included — there is no `Transcription` key. -/
def successDict (file_path : String) (cs ev : Json) : PyDict :=
  [("FileName", PyVal.vStr (basename file_path)),
   ("FilePath", PyVal.vStr file_path),
   ("Success", PyVal.vBool true),
   ("CallSummary", PyVal.vJson cs),
   ("QA_Evaluation", PyVal.vJson ev)]

/-- `process_file` of this variant: transcribe, analyze, assemble; every
exception is caught and converted into `failDict`. -/
def process_file (parse : String → Except String Json) (env : PatEnv)
    (file_path : String) : PyDict :=
  match transcribe_audio env with
  | Except.error e => failDict file_path e
  | Except.ok _transcript =>
    match analyze_transcript parse env with
    | Except.error e => failDict file_path e
    | Except.ok qaJson =>
      match Json.get qaJson "call_summary" with
      | Except.error e => failDict file_path e
      | Except.ok cs =>
        match Json.get qaJson "qa_evaluation" with
        | Except.error e => failDict file_path e
        | Except.ok ev => successDict file_path cs ev

end ProcessAudioTranscribe

namespace RecentAsPerHuzaifa

/-- The object returned by `genai.upload_file`: display name and remote
name. -/
structure UploadedFile where
  displayName : String
  fname : String

/-- Oracle for the remote outcomes of one `process_single_audio` call:
`upload` is the outcome of `genai.upload_file` (raised message, `None`, or
a file object), `generate` the outcome of `model.generate_content` up to
`response.text`, and `deleteFile` the outcome of `genai.delete_file`. -/
structure HuzEnv where
  upload : Except String (Option UploadedFile)
  generate : Except String (Option String)
  deleteFile : Except String Unit

/-- Outcome of one `process_single_audio` call: the function returns
normally (mutated `output_json` and `failed_files` lists), or an exception
escapes to the caller. -/
inductive SingleOutcome where
  | normal (out : List PyDict) (failed : List String)
  | raised (exc : String) (out : List PyDict) (failed : List String)

/-- Python `d[k] = v` on an insertion-ordered dict: update in place when
the key exists, append otherwise. -/
def dictSet (d : PyDict) (k : String) (v : PyVal) : PyDict :=
  if d.any (fun kv => kv.1 == k) then
    d.map (fun kv => if kv.1 == k then (k, v) else kv)
  else d ++ [(k, v)]

/-- The fields of a parsed JSON object viewed as a Python dict. -/
def jsonFieldsToDict (fields : List (String × Json)) : PyDict :=
  fields.map (fun kv => (kv.1, PyVal.vJson kv.2))

/-- `process_single_audio`, translated statement by statement.  The final
`print` of the elapsed time references `audio_file.display_name` OUTSIDE
the try/except: when `genai.upload_file` raised, `audio_file` is unbound
and a `NameError` escapes; when it returned a falsy value, the caught
`ValueError` path leaves `audio_file = None` and an `AttributeError`
escapes from the same line.  A JSON decode error returns early (before the
final print); every other failure is caught, appended to `failed_files`,
and the function returns normally. -/
def process_single_audio (parse : String → Except String Json) (env : HuzEnv)
    (audio_path : String) (out : List PyDict) (failed : List String) : SingleOutcome :=
  match env.upload with
  | Except.error _ =>
    SingleOutcome.raised "NameError: name audio_file is not defined" out (failed ++ [audio_path])
  | Except.ok none =>
    SingleOutcome.raised "AttributeError: NoneType object has no attribute display_name"
      out (failed ++ [audio_path])
  | Except.ok (some f) =>
    match env.generate with
    | Except.error _ => SingleOutcome.normal out (failed ++ [audio_path])
    | Except.ok none => SingleOutcome.normal out (failed ++ [audio_path])
    | Except.ok (some t) =>
      if t = "" then SingleOutcome.normal out (failed ++ [audio_path])
      else
        match parse t with
        | Except.error _ => SingleOutcome.normal out (failed ++ [audio_path])
        | Except.ok (Json.obj fields) =>
          let d0 := jsonFieldsToDict fields
          let d1 := dictSet d0 "FileName" (PyVal.vStr f.displayName)
          let d2 := dictSet d1 "FilePath" (PyVal.vStr audio_path)
          let d3 := dictSet d2 "Success" (PyVal.vBool true)
          let d4 := dictSet d3 "Message" (PyVal.vStr "Processed successfully.")
          match env.deleteFile with
          | Except.ok _ => SingleOutcome.normal (out ++ [d4]) failed
          | Except.error _ => SingleOutcome.normal (out ++ [d4]) (failed ++ [audio_path])
        | Except.ok _ => SingleOutcome.normal out (failed ++ [audio_path])

/-- One batch dispatched through `asyncio.gather`: the coroutines contain
no `await`, so they run to completion sequentially in submission order;
with `return_exceptions=False` the first exception is re-raised by the
`await` after every member has run. -/
def runBatch (parse : String → Except String Json) (envOf : String → HuzEnv)
    (batch : List String) (out : List PyDict) (failed : List String) :
    List PyDict × List String × Option String :=
  match batch with
  | [] => (out, failed, none)
  | p :: rest =>
    match process_single_audio parse (envOf p) p out failed with
    | SingleOutcome.normal o f => runBatch parse envOf rest o f
    | SingleOutcome.raised e o f =>
      let r := runBatch parse envOf rest o f
      (r.1, r.2.1, some e)

/-- Outcome of a full first pass (or whole run): normal completion or an
escaped exception. -/
inductive RunOutcome where
  | normal (out : List PyDict) (failed : List String)
  | raised (exc : String) (out : List PyDict) (failed : List String)

/-- The batch loop of `process_audio_files`: an exception escaping a batch
aborts the remaining batches (and skips the retry pass). -/
def runBatches (parse : String → Except String Json) (envOf : String → HuzEnv)
    (batches : List (List String)) (out : List PyDict) (failed : List String) : RunOutcome :=
  match batches with
  | [] => RunOutcome.normal out failed
  | b :: rest =>
    match runBatch parse envOf b out failed with
    | (o, f, some e) => RunOutcome.raised e o f
    | (o, f, none) => runBatches parse envOf rest o f

/-- The loop body of `retry_failed_files`: each previously failed path is
reprocessed; an exception escaping `process_single_audio` is caught here
and appends a failure record (note: with `FileName` set to the full path
and no `FilePath` key). -/
def retryLoop (parse : String → Except String Json) (envOf : String → HuzEnv)
    (pending : List String) (out : List PyDict) (finalFailed : List String) :
    List PyDict × List String :=
  match pending with
  | [] => (out, finalFailed)
  | p :: rest =>
    match process_single_audio parse (envOf p) p out finalFailed with
    | SingleOutcome.normal o f => retryLoop parse envOf rest o f
    | SingleOutcome.raised e o f =>
      retryLoop parse envOf rest
        (o ++ [[("FileName", PyVal.vStr p),
                ("Success", PyVal.vBool false),
                ("Message", PyVal.vStr ("Error processing file on retry: " ++ e))]]) f

/-- `process_audio_files`: batches of `batch_size` paths, then — when any
file failed — the in-function retry pass over `failed_files`. -/
def process_audio_files (parse : String → Except String Json) (envOf : String → HuzEnv)
    (audio_paths : List String) (batch_size : Nat) : RunOutcome :=
  match runBatches parse envOf (chunks batch_size audio_paths) [] [] with
  | RunOutcome.raised e o f => RunOutcome.raised e o f
  | RunOutcome.normal o f =>
    if f.isEmpty then RunOutcome.normal o f
    else
      let r := retryLoop parse envOf f o []
      RunOutcome.normal r.1 r.2

/-- `organize_output_by_folders`: items carrying a `FilePath` whose
normalized path has at least three components are grouped, in insertion
order, under the folder name `path_parts[1]`; all other items (including
every failure record appended by the retry pass, which has no `FilePath`)
are dropped. -/
def addToFolder (acc : List (String × List PyDict)) (folder : String) (item : PyDict) :
    List (String × List PyDict) :=
  if acc.any (fun kv => kv.1 == folder) then
    acc.map (fun kv => if kv.1 == folder then (kv.1, kv.2 ++ [item]) else kv)
  else acc ++ [(folder, [item])]

/-- Grouping of the collected output records by second-level folder name. -/
def organize_output_by_folders (output_json : List PyDict) : List (String × List PyDict) :=
  output_json.foldl (fun acc item =>
    match item.lookup "FilePath" with
    | some (PyVal.vStr p) =>
      let parts := splitSlash p
      if parts.length ≥ 3 then addToFolder acc (parts.getD 1 "") item else acc
    | _ => acc) []

/-- The `__main__` flow of `recentAsPerHuzaifa-upgraded.py`: the first pass
(with its internal retry), a second `retry_failed_files` invocation when
files are still failed, then `save_output`, which writes exactly one JSON
file per folder key produced by `organize_output_by_folders`.  `none` means
the script crashed on an escaped exception before saving anything. -/
def huzFullRun (parse : String → Except String Json) (envOf : String → HuzEnv)
    (audio_paths : List String) : Option (List (String × List PyDict)) :=
  match process_audio_files parse envOf audio_paths 10 with
  | RunOutcome.raised _ _ _ => none
  | RunOutcome.normal o f =>
    let r := if f.isEmpty then (o, f) else retryLoop parse envOf f o []
    some (organize_output_by_folders r.1)

end RecentAsPerHuzaifa

/-! ### General helper lemmas -/

theorem chunksGo_flatten {α : Type} (bs : Nat) (hbs : 1 ≤ bs) :
    ∀ fuel (xs : List α), xs.length ≤ fuel → (chunksGo bs fuel xs).flatten = xs := by
  intro fuel
  induction fuel with
  | zero =>
    intro xs hlen
    have hxs : xs = [] := List.eq_nil_of_length_eq_zero (Nat.le_zero.mp hlen)
    subst hxs
    rfl
  | succ n ih =>
    intro xs hlen
    match xs with
    | [] => rfl
    | x :: rest =>
      have hdrop : ((x :: rest).drop bs).length ≤ n := by
        have h1 : ((x :: rest).drop bs).length = (x :: rest).length - bs := by
          simp [List.length_drop]
        have h2 : (x :: rest).length - bs ≤ (x :: rest).length - 1 :=
          Nat.sub_le_sub_left hbs _
        have h3 : (x :: rest).length - 1 = rest.length := by simp
        omega
      calc (chunksGo bs (n + 1) (x :: rest)).flatten
          = (x :: rest).take bs ++ (chunksGo bs n ((x :: rest).drop bs)).flatten := by
            simp [chunksGo]
        _ = (x :: rest).take bs ++ (x :: rest).drop bs := by rw [ih _ hdrop]
        _ = x :: rest := List.take_append_drop bs (x :: rest)

theorem chunks_flatten {α : Type} (bs : Nat) (hbs : 1 ≤ bs) (xs : List α) :
    (chunks bs xs).flatten = xs :=
  chunksGo_flatten bs hbs xs.length xs (Nat.le_refl _)

theorem retryGo_error_src {α : Type} (op : Nat → Except String α) :
    ∀ n attempt e c, retryGo op attempt n = (Except.error e, c) →
      ∃ a, op a = Except.error e := by
  intro n
  induction n with
  | zero =>
    intro attempt e c h
    simp only [retryGo] at h
    exact ⟨attempt, congrArg Prod.fst h⟩
  | succ m ih =>
    intro attempt e c h
    match m with
    | 0 =>
      simp only [retryGo] at h
      exact ⟨attempt, congrArg Prod.fst h⟩
    | k + 1 =>
      simp only [retryGo] at h
      cases hop : op attempt with
      | ok v => rw [hop] at h; simp at h
      | error e0 =>
        rw [hop] at h
        simp only at h
        have h1 : retryGo op (attempt + 1) (k + 1) =
            ((retryGo op (attempt + 1) (k + 1)).1, (retryGo op (attempt + 1) (k + 1)).2) := rfl
        have h2 : (retryGo op (attempt + 1) (k + 1)).1 = Except.error e := by
          have := congrArg Prod.fst h
          simpa using this
        exact ih (attempt + 1) e _ (by rw [h1, h2])

namespace ImprovedVersionFinal

theorem process_file_shape (parse : String → Except String Json) (env : FileEnv)
    (elapsed : Nat) (path : String) :
    (∃ t cs ev, process_file parse env elapsed path = successDict path t cs ev) ∨
    (∃ e, process_file parse env elapsed path = failDict path e elapsed) := by
  cases h1 : (transcribe_audio env).1 with
  | error e => exact Or.inr ⟨e, by simp [process_file, h1]⟩
  | ok t =>
    cases h2 : (analyze_transcript parse env).1 with
    | error e => exact Or.inr ⟨e, by simp [process_file, h1, h2]⟩
    | ok j =>
      cases h3 : Json.get j "call_summary" with
      | error e => exact Or.inr ⟨e, by simp [process_file, h1, h2, h3]⟩
      | ok cs =>
        cases h4 : Json.get j "qa_evaluation" with
        | error e => exact Or.inr ⟨e, by simp [process_file, h1, h2, h3, h4]⟩
        | ok ev => exact Or.inl ⟨t, cs, ev, by simp [process_file, h1, h2, h3, h4]⟩

theorem successDict_lookup_success (path t : String) (cs ev : Json) :
    (successDict path t cs ev).lookup "Success" = some (PyVal.vBool true) := rfl

theorem failDict_lookup_success (path e : String) (elapsed : Nat) :
    (failDict path e elapsed).lookup "Success" = some (PyVal.vBool false) := rfl

theorem successDict_lookup_filePath (path t : String) (cs ev : Json) :
    (successDict path t cs ev).lookup "FilePath" = some (PyVal.vStr path) := rfl

theorem failDict_lookup_filePath (path e : String) (elapsed : Nat) :
    (failDict path e elapsed).lookup "FilePath" = some (PyVal.vStr path) := rfl

theorem process_file_lookup_filePath (parse : String → Except String Json) (env : FileEnv)
    (elapsed : Nat) (path : String) :
    (process_file parse env elapsed path).lookup "FilePath" = some (PyVal.vStr path) := by
  rcases process_file_shape parse env elapsed path with ⟨t, cs, ev, h⟩ | ⟨e, h⟩ <;> rw [h] <;> rfl

theorem mainProcessAll_eq_map (parse : String → Except String Json) (envOf : String → FileEnv)
    (elapsedOf : String → Nat) (bs : Nat) (hbs : 1 ≤ bs) (files : List String) :
    mainProcessAll parse envOf elapsedOf bs files =
      files.map (fun f => process_file parse (envOf f) (elapsedOf f) f) := by
  unfold mainProcessAll process_batch
  rw [← List.map_flatten, chunks_flatten bs hbs]

end ImprovedVersionFinal

theorem countP_not_add {α : Type} (p : α → Bool) (l : List α) :
    l.countP p + l.countP (fun a => !(p a)) = l.length := by
  induction l with
  | nil => rfl
  | cons x xs ih =>
    cases hx : p x <;> simp [List.countP_cons, hx] <;> omega

/-- Claim C4: a wrapped remote operation that fails on every attempt is
invoked exactly 3 times and the final failure is re-raised unchanged; an
operation that first succeeds on attempt `k ≤ 3` is invoked exactly `k`
times and its success value is returned. -/
theorem claim4_retry_contract {α : Type} (op : Nat → Except String α) :
    (∀ m : Nat → String,
      (∀ i, 1 ≤ i → i ≤ 3 → op i = Except.error (m i)) →
      retryCall 3 op = (Except.error (m 3), 3)) ∧
    (∀ k v, 1 ≤ k → k ≤ 3 →
      (∀ i, 1 ≤ i → i < k → ∃ e, op i = Except.error e) →
      op k = Except.ok v →
      retryCall 3 op = (Except.ok v, k)) := by
  constructor
  · intro m hm
    have h1 := hm 1 (by omega) (by omega)
    have h2 := hm 2 (by omega) (by omega)
    have h3 := hm 3 (by omega) (by omega)
    simp [retryCall, retryGo, h1, h2, h3]
  · intro k v hk1 hk3 hfail hsucc
    interval_cases k
    · simp [retryCall, retryGo, hsucc]
    · obtain ⟨e1, he1⟩ := hfail 1 (by omega) (by omega)
      simp [retryCall, retryGo, he1, hsucc]
    · obtain ⟨e1, he1⟩ := hfail 1 (by omega) (by omega)
      obtain ⟨e2, he2⟩ := hfail 2 (by omega) (by omega)
      simp [retryCall, retryGo, he1, he2, hsucc]

def opAlwaysFails : Nat → Except String String := fun i => Except.error (toString i)

def opSucceedsSecond : Nat → Except String String := fun i =>
  if i = 2 then Except.ok "transcript" else Except.error "rate limited"

theorem claim4_retry_contract_witness :
    retryCall 3 opAlwaysFails = (Except.error (toString 3), 3) ∧
    retryCall 3 opSucceedsSecond = (Except.ok "transcript", 2) := by
  constructor
  · exact (claim4_retry_contract opAlwaysFails).1 (fun i => toString i) (fun i h1 h2 => rfl)
  · refine (claim4_retry_contract opSucceedsSecond).2 2 "transcript" (by omega) (by omega) ?_ rfl
    intro i h1 h2
    have hi : i = 1 := by omega
    subst hi
    exact ⟨"rate limited", rfl⟩

/-- Claim C8: the wait before the retry following failed attempt `n`
(`n < maxAttempts = 3`), as configured at both remote call sites
(`wait_exponential(multiplier=1, min=4, max=10)`), equals the spec formula
`min(max_wait, base * 2^(n-1))` clamped to the `[min_wait, max_wait]`
window with base 1, min 4 and max 10. -/
theorem claim8_backoff_formula (n : Nat) (h1 : 1 ≤ n) (h2 : n < 3) :
    retryWait n = specBackoffWait 1 4 10 n := by
  interval_cases n <;> rfl

theorem claim8_backoff_formula_witness :
    retryWait 1 = specBackoffWait 1 4 10 1 ∧ retryWait 1 = 4 ∧ retryWait 2 = 4 :=
  ⟨claim8_backoff_formula 1 (by omega) (by omega), rfl, rfl⟩

/-- Claim C3: for every generated folder report the summary counters
satisfy `SuccessfulFiles + FailedFiles = TotalFiles`, and `TotalFiles` is
the number of audio files discovered in the folder. -/
theorem claim3_folder_report_invariant (parse : String → Except String Json)
    (envOf : String → ImprovedVersionFinal.FileEnv) (elapsedOf : String → Nat)
    (audio_files : List String) :
    (ImprovedVersionFinal.mainFolderReport parse envOf elapsedOf audio_files).SuccessfulFiles +
      (ImprovedVersionFinal.mainFolderReport parse envOf elapsedOf audio_files).FailedFiles =
      (ImprovedVersionFinal.mainFolderReport parse envOf elapsedOf audio_files).TotalFiles ∧
    (ImprovedVersionFinal.mainFolderReport parse envOf elapsedOf audio_files).TotalFiles =
      audio_files.length := by
  refine ⟨?_, rfl⟩
  have hm := ImprovedVersionFinal.mainProcessAll_eq_map parse envOf elapsedOf 10 (by omega)
    audio_files
  simp only [ImprovedVersionFinal.mainFolderReport, hm]
  rw [countP_not_add]
  exact List.length_map _ _

/-- A `json.loads` that rejects every input, as when the model returns
non-JSON text. -/
def parseRejectAll : String → Except String Json := fun _ =>
  Except.error "Expecting value: line 1 column 1 (char 0)"

/-- Remote environment in which `genai.upload_file` raises (e.g. the input
file does not exist or the service rejects the upload). -/
def envUploadFails : RecentAsPerHuzaifa.HuzEnv :=
  { upload := Except.error "PermissionDenied: could not upload file"
    generate := Except.ok none
    deleteFile := Except.ok () }

/-- Claim C1 (code bug): when the upload call raises, the `except` block of
`process_single_audio` records the failure, but the final timing `print`
references `audio_file.display_name` outside the try/except while
`audio_file` was never bound, so a `NameError` escapes the item boundary
and, through `asyncio.gather`, aborts the whole batch. -/
theorem claim1_upload_failure_escapes :
    RecentAsPerHuzaifa.process_single_audio parseRejectAll envUploadFails
        "test/A/missing.wav" [] [] =
      RecentAsPerHuzaifa.SingleOutcome.raised
        "NameError: name audio_file is not defined" [] ["test/A/missing.wav"] ∧
    RecentAsPerHuzaifa.process_audio_files parseRejectAll (fun _ => envUploadFails)
        ["test/A/missing.wav"] 10 =
      RecentAsPerHuzaifa.RunOutcome.raised
        "NameError: name audio_file is not defined" [] ["test/A/missing.wav"] :=
  ⟨rfl, rfl⟩

/-- Number of collected output records of a run of the
`recentAsPerHuzaifa` variant. -/
def huzOutLen : RecentAsPerHuzaifa.RunOutcome → Nat
  | RecentAsPerHuzaifa.RunOutcome.normal o _ => o.length
  | RecentAsPerHuzaifa.RunOutcome.raised _ o _ => o.length

/-- A `json.loads` that accepts exactly the fixed response body used by the
succeeding stub below. -/
def parseGoodOnly : String → Except String Json := fun t =>
  if t = "goodjson" then
    Except.ok (Json.obj [("summary", Json.str "fine")])
  else Except.error "Expecting value: line 1 column 1 (char 0)"

/-- Environment where the first file succeeds and the second returns
unparseable analysis text on every attempt. -/
def envOfOneBadJson : String → RecentAsPerHuzaifa.HuzEnv := fun p =>
  { upload := Except.ok (some { displayName := basename p, fname := "files/remote" })
    generate := Except.ok (some (if p = "test/A/b.wav" then "notjson" else "goodjson"))
    deleteFile := Except.ok () }

/-- Claim C2 counterexample: in `process_audio_files` of
`recentAsPerHuzaifa-upgraded.py`, a file whose analysis response fails JSON
decoding on the first pass and on the retry pass produces no result record
at all: two input files yield one result. -/
theorem claim2_counterexample :
    huzOutLen (RecentAsPerHuzaifa.process_audio_files parseGoodOnly envOfOneBadJson
      ["test/A/a.wav", "test/A/b.wav"] 10) = 1 ∧
    (["test/A/a.wav", "test/A/b.wav"] : List String).length = 2 :=
  ⟨rfl, rfl⟩

/-- Claim C2 (amended): in `ImprovedVersionFinal.py` the batching loop
produces exactly one result per input file and the results are aligned with
the inputs, in order, within and across batches. -/
theorem claim2_amended_batch_alignment (parse : String → Except String Json)
    (envOf : String → ImprovedVersionFinal.FileEnv) (elapsedOf : String → Nat)
    (bs : Nat) (files : List String) (hbs : 1 ≤ bs) :
    (ImprovedVersionFinal.mainProcessAll parse envOf elapsedOf bs files).length =
      files.length ∧
    ∀ (i : Nat) (r : PyDict) (f : String),
      (ImprovedVersionFinal.mainProcessAll parse envOf elapsedOf bs files)[i]? = some r →
      files[i]? = some f → r.lookup "FilePath" = some (PyVal.vStr f) := by
  have hm := ImprovedVersionFinal.mainProcessAll_eq_map parse envOf elapsedOf bs hbs files
  rw [hm]
  constructor
  · exact List.length_map _ _
  · intro i r f hr hf
    rw [List.getElem?_map, hf] at hr
    have hr2 : ImprovedVersionFinal.process_file parse (envOf f) (elapsedOf f) f = r := by
      injection hr
    rw [← hr2]
    exact ImprovedVersionFinal.process_file_lookup_filePath parse (envOf f) (elapsedOf f) f

/-- Remote environment in which every stage of every attempt succeeds with
fixed small payloads. -/
def genericEnvOk : String → ImprovedVersionFinal.FileEnv := fun _ =>
  { transcribeAttempt := fun _ => Except.ok (some "hello there")
    analyzeAttempt := fun _ => Except.ok (some "analysisbody") }

/-- A `json.loads` returning a fixed well-formed QA object. -/
def genericParseOk : String → Except String Json := fun _ =>
  Except.ok (Json.obj
    [("call_summary", Json.str "a short summary"),
     ("qa_evaluation", Json.arr [Json.str "criterion one"])])

/-- Fixed abstract elapsed-time oracle. -/
def genericElapsed : String → Nat := fun _ => 1

theorem claim2_amended_batch_alignment_witness :
    (ImprovedVersionFinal.mainProcessAll genericParseOk genericEnvOk genericElapsed 2
      ["g/x.wav", "g/y.wav", "g/z.wav"]).length = 3 ∧
    ((ImprovedVersionFinal.mainProcessAll genericParseOk genericEnvOk genericElapsed 2
      ["g/x.wav", "g/y.wav", "g/z.wav"])[1]?).map (fun r => r.lookup "FilePath") =
      some (some (PyVal.vStr "g/y.wav")) :=
  ⟨((claim2_amended_batch_alignment genericParseOk genericEnvOk genericElapsed 2
      ["g/x.wav", "g/y.wav", "g/z.wav"] (by omega)).1).trans rfl, rfl⟩

/-- A `json.loads` returning a QA object whose summary and evaluation are
empty. -/
def parseEmptyFields : String → Except String Json := fun _ =>
  Except.ok (Json.obj [("call_summary", Json.str ""), ("qa_evaluation", Json.arr [])])

/-- Environment in which the transcription response text is the empty
string and the analysis call succeeds. -/
def envEmptyTranscript : ImprovedVersionFinal.FileEnv :=
  { transcribeAttempt := fun _ => Except.ok (some "")
    analyzeAttempt := fun _ => Except.ok (some "analysisbody") }

/-- Claim C5 counterexample: `transcribe_audio` performs no emptiness check
on `(response.text or "").strip()`, so a run whose transcription response
is empty still yields a `Success=true` result carrying an empty
`Transcription` (and, here, an empty `CallSummary` and empty
`QA_Evaluation` as well). -/
theorem claim5_counterexample :
    ImprovedVersionFinal.process_file parseEmptyFields envEmptyTranscript 5 "calls/empty.wav" =
      ImprovedVersionFinal.successDict "calls/empty.wav" "" (Json.str "") (Json.arr []) ∧
    isSuccessTrue (ImprovedVersionFinal.process_file parseEmptyFields envEmptyTranscript 5
      "calls/empty.wav") = true ∧
    (ImprovedVersionFinal.process_file parseEmptyFields envEmptyTranscript 5
      "calls/empty.wav").lookup "Transcription" = some (PyVal.vStr "") :=
  ⟨rfl, rfl, rfl⟩

namespace ImprovedVersionFinal

theorem isSuccessTrue_failDict (path e : String) (elapsed : Nat) :
    isSuccessTrue (failDict path e elapsed) = false := rfl

theorem isSuccessTrue_successDict (path t : String) (cs ev : Json) :
    isSuccessTrue (successDict path t cs ev) = true := rfl

end ImprovedVersionFinal

/-- Claim C5 (amended): a `Success=true` result implies both stages
succeeded and the parsed analysis JSON contained the `call_summary` and
`qa_evaluation` keys, whose values are attached to the result together
with the transcript — but none of the three is checked for non-emptiness. -/
theorem claim5_amended_success_fields (parse : String → Except String Json)
    (env : ImprovedVersionFinal.FileEnv) (elapsed : Nat) (path : String)
    (hs : isSuccessTrue (ImprovedVersionFinal.process_file parse env elapsed path) = true) :
    ∃ t j cs ev,
      (ImprovedVersionFinal.transcribe_audio env).1 = Except.ok t ∧
      (ImprovedVersionFinal.analyze_transcript parse env).1 = Except.ok j ∧
      Json.get j "call_summary" = Except.ok cs ∧
      Json.get j "qa_evaluation" = Except.ok ev ∧
      ImprovedVersionFinal.process_file parse env elapsed path =
        ImprovedVersionFinal.successDict path t cs ev := by
  cases h1 : (ImprovedVersionFinal.transcribe_audio env).1 with
  | error e =>
    rw [show ImprovedVersionFinal.process_file parse env elapsed path =
      ImprovedVersionFinal.failDict path e elapsed by
        simp [ImprovedVersionFinal.process_file, h1],
      ImprovedVersionFinal.isSuccessTrue_failDict] at hs
    exact absurd hs (by simp)
  | ok t =>
    cases h2 : (ImprovedVersionFinal.analyze_transcript parse env).1 with
    | error e =>
      rw [show ImprovedVersionFinal.process_file parse env elapsed path =
        ImprovedVersionFinal.failDict path e elapsed by
          simp [ImprovedVersionFinal.process_file, h1, h2],
        ImprovedVersionFinal.isSuccessTrue_failDict] at hs
      exact absurd hs (by simp)
    | ok j =>
      cases h3 : Json.get j "call_summary" with
      | error e =>
        rw [show ImprovedVersionFinal.process_file parse env elapsed path =
          ImprovedVersionFinal.failDict path e elapsed by
            simp [ImprovedVersionFinal.process_file, h1, h2, h3],
          ImprovedVersionFinal.isSuccessTrue_failDict] at hs
        exact absurd hs (by simp)
      | ok cs =>
        cases h4 : Json.get j "qa_evaluation" with
        | error e =>
          rw [show ImprovedVersionFinal.process_file parse env elapsed path =
            ImprovedVersionFinal.failDict path e elapsed by
              simp [ImprovedVersionFinal.process_file, h1, h2, h3, h4],
            ImprovedVersionFinal.isSuccessTrue_failDict] at hs
          exact absurd hs (by simp)
        | ok ev =>
          exact ⟨t, j, cs, ev, rfl, rfl, h3, h4, by
            simp [ImprovedVersionFinal.process_file, h1, h2, h3, h4]⟩

theorem claim5_amended_success_fields_witness :
    ∃ t j cs ev,
      (ImprovedVersionFinal.transcribe_audio envEmptyTranscript).1 = Except.ok t ∧
      (ImprovedVersionFinal.analyze_transcript parseEmptyFields envEmptyTranscript).1 =
        Except.ok j ∧
      Json.get j "call_summary" = Except.ok cs ∧
      Json.get j "qa_evaluation" = Except.ok ev ∧
      ImprovedVersionFinal.process_file parseEmptyFields envEmptyTranscript 5 "calls/empty.wav" =
        ImprovedVersionFinal.successDict "calls/empty.wav" t cs ev :=
  claim5_amended_success_fields parseEmptyFields envEmptyTranscript 5 "calls/empty.wav" rfl

/-- Claim C7 counterexample: when both stages succeed, the result of
`process_file` is exactly the six-field success dictionary — the computed
`total_time` is discarded and no `Timing` (or any other elapsed-time) field
is recorded, whatever the elapsed duration (99 here) was. -/
theorem claim7_counterexample :
    ImprovedVersionFinal.process_file genericParseOk (genericEnvOk "a/ok.wav") 99 "a/ok.wav" =
      ImprovedVersionFinal.successDict "a/ok.wav" "hello there"
        (Json.str "a short summary") (Json.arr [Json.str "criterion one"]) ∧
    isSuccessTrue (ImprovedVersionFinal.process_file genericParseOk (genericEnvOk "a/ok.wav")
      99 "a/ok.wav") = true ∧
    (ImprovedVersionFinal.process_file genericParseOk (genericEnvOk "a/ok.wav")
      99 "a/ok.wav").lookup "Timing" = none :=
  ⟨rfl, rfl, rfl⟩

/-- Claim C7 (amended): success results of `process_file` carry no elapsed
time at all; only failure results record the elapsed wall-clock time, under
`Timing.TotalTime`. -/
theorem claim7_amended_timing (parse : String → Except String Json)
    (env : ImprovedVersionFinal.FileEnv) (elapsed : Nat) (path : String) :
    (isSuccessTrue (ImprovedVersionFinal.process_file parse env elapsed path) = true →
      (ImprovedVersionFinal.process_file parse env elapsed path).lookup "Timing" = none) ∧
    (isSuccessTrue (ImprovedVersionFinal.process_file parse env elapsed path) = false →
      (ImprovedVersionFinal.process_file parse env elapsed path).lookup "Timing" =
        some (PyVal.vDict [("TotalTime", PyVal.vNat elapsed)])) := by
  rcases ImprovedVersionFinal.process_file_shape parse env elapsed path with
    ⟨t, cs, ev, h⟩ | ⟨e, h⟩
  · rw [h]
    constructor
    · intro hb
      rfl
    · intro hb
      rw [ImprovedVersionFinal.isSuccessTrue_successDict] at hb
      exact absurd hb (by simp)
  · rw [h]
    constructor
    · intro hb
      rw [ImprovedVersionFinal.isSuccessTrue_failDict] at hb
      exact absurd hb (by simp)
    · intro hb
      rfl

/-- Environment in which transcription raises on every attempt. -/
def envTranscribeAlwaysFails : ImprovedVersionFinal.FileEnv :=
  { transcribeAttempt := fun _ => Except.error "503 Service Unavailable"
    analyzeAttempt := fun _ => Except.ok (some "analysisbody") }

theorem claim7_amended_timing_witness :
    (ImprovedVersionFinal.process_file genericParseOk (genericEnvOk "a/ok.wav")
      7 "a/ok.wav").lookup "Timing" = none ∧
    (ImprovedVersionFinal.process_file genericParseOk envTranscribeAlwaysFails
      7 "a/bad.wav").lookup "Timing" =
      some (PyVal.vDict [("TotalTime", PyVal.vNat 7)]) :=
  ⟨(claim7_amended_timing genericParseOk (genericEnvOk "a/ok.wav") 7 "a/ok.wav").1 rfl,
   (claim7_amended_timing genericParseOk envTranscribeAlwaysFails 7 "a/bad.wav").2 rfl⟩

namespace ProcessAudioTranscribe

theorem pat_process_file_shape (parse : String → Except String Json) (env : PatEnv)
    (path : String) :
    (∃ cs ev, process_file parse env path = successDict path cs ev) ∨
    (∃ e, process_file parse env path = failDict path e) := by
  cases h1 : transcribe_audio env with
  | error e => exact Or.inr ⟨e, by simp [process_file, h1]⟩
  | ok t =>
    cases h2 : analyze_transcript parse env with
    | error e => exact Or.inr ⟨e, by simp [process_file, h1, h2]⟩
    | ok j =>
      cases h3 : Json.get j "call_summary" with
      | error e => exact Or.inr ⟨e, by simp [process_file, h1, h2, h3]⟩
      | ok cs =>
        cases h4 : Json.get j "qa_evaluation" with
        | error e => exact Or.inr ⟨e, by simp [process_file, h1, h2, h3, h4]⟩
        | ok ev => exact Or.inl ⟨cs, ev, by simp [process_file, h1, h2, h3, h4]⟩

theorem pat_isSuccessTrue_failDict (path e : String) :
    isSuccessTrue (failDict path e) = false := rfl

theorem pat_isSuccessTrue_successDict (path : String) (cs ev : Json) :
    isSuccessTrue (successDict path cs ev) = true := rfl

end ProcessAudioTranscribe

/-- Environment of `process-audio-transcribe.py` in which both remote
calls succeed. -/
def patEnvOk : ProcessAudioTranscribe.PatEnv :=
  { transcribeResp := Except.ok (some "hello there")
    analyzeResp := Except.ok (some "analysisbody") }

/-- Claim C10 counterexample: in `process-audio-transcribe.py`, the
success dictionary built by `process_file` has no `Transcription` key at
all — `Success=true` does not make a `Transcription` field present. -/
theorem claim10_counterexample :
    isSuccessTrue (ProcessAudioTranscribe.process_file genericParseOk patEnvOk
      "t/call.wav") = true ∧
    (ProcessAudioTranscribe.process_file genericParseOk patEnvOk
      "t/call.wav").lookup "Transcription" = none ∧
    ProcessAudioTranscribe.process_file genericParseOk patEnvOk "t/call.wav" =
      ProcessAudioTranscribe.successDict "t/call.wav"
        (Json.str "a short summary") (Json.arr [Json.str "criterion one"]) :=
  ⟨rfl, rfl, rfl⟩

/-- Claim C10 (amended): in both `process_file` implementations every
result carries `FileName = basename(path)`, `FilePath = path` unchanged and
a boolean `Success`; in `ImprovedVersionFinal.py`, `Success=true` results
carry `Transcription`, `CallSummary` and `QA_Evaluation` and no `Error`,
while failures carry `Error` and no `Transcription`; in
`process-audio-transcribe.py` success results carry only `CallSummary` and
`QA_Evaluation` — no `Transcription` key — and failures carry `Error`. -/
theorem claim10_result_shape (parse : String → Except String Json)
    (env : ImprovedVersionFinal.FileEnv) (penv : ProcessAudioTranscribe.PatEnv)
    (elapsed : Nat) (path : String) :
    ((ImprovedVersionFinal.process_file parse env elapsed path).lookup "FileName" =
        some (PyVal.vStr (basename path)) ∧
      (ImprovedVersionFinal.process_file parse env elapsed path).lookup "FilePath" =
        some (PyVal.vStr path) ∧
      ∃ b, (ImprovedVersionFinal.process_file parse env elapsed path).lookup "Success" =
          some (PyVal.vBool b) ∧
        (b = true →
          ((ImprovedVersionFinal.process_file parse env elapsed path).lookup
            "Transcription").isSome = true ∧
          ((ImprovedVersionFinal.process_file parse env elapsed path).lookup
            "CallSummary").isSome = true ∧
          ((ImprovedVersionFinal.process_file parse env elapsed path).lookup
            "QA_Evaluation").isSome = true ∧
          (ImprovedVersionFinal.process_file parse env elapsed path).lookup "Error" = none) ∧
        (b = false →
          ((ImprovedVersionFinal.process_file parse env elapsed path).lookup
            "Error").isSome = true ∧
          (ImprovedVersionFinal.process_file parse env elapsed path).lookup
            "Transcription" = none)) ∧
    ((ProcessAudioTranscribe.process_file parse penv path).lookup "FileName" =
        some (PyVal.vStr (basename path)) ∧
      (ProcessAudioTranscribe.process_file parse penv path).lookup "FilePath" =
        some (PyVal.vStr path) ∧
      ∃ b, (ProcessAudioTranscribe.process_file parse penv path).lookup "Success" =
          some (PyVal.vBool b) ∧
        (b = true →
          (ProcessAudioTranscribe.process_file parse penv path).lookup
            "Transcription" = none ∧
          ((ProcessAudioTranscribe.process_file parse penv path).lookup
            "CallSummary").isSome = true ∧
          ((ProcessAudioTranscribe.process_file parse penv path).lookup
            "QA_Evaluation").isSome = true ∧
          (ProcessAudioTranscribe.process_file parse penv path).lookup "Error" = none) ∧
        (b = false →
          ((ProcessAudioTranscribe.process_file parse penv path).lookup
            "Error").isSome = true)) := by
  constructor
  · rcases ImprovedVersionFinal.process_file_shape parse env elapsed path with
      ⟨t, cs, ev, h⟩ | ⟨e, h⟩
    · rw [h]
      refine ⟨rfl, rfl, true, rfl, ?_, ?_⟩
      · intro hb
        exact ⟨rfl, rfl, rfl, rfl⟩
      · intro hb
        exact absurd hb (by simp)
    · rw [h]
      refine ⟨rfl, rfl, false, rfl, ?_, ?_⟩
      · intro hb
        exact absurd hb (by simp)
      · intro hb
        exact ⟨rfl, rfl⟩
  · rcases ProcessAudioTranscribe.pat_process_file_shape parse penv path with
      ⟨cs, ev, h⟩ | ⟨e, h⟩
    · rw [h]
      refine ⟨rfl, rfl, true, rfl, ?_, ?_⟩
      · intro hb
        exact ⟨rfl, rfl, rfl, rfl⟩
      · intro hb
        exact absurd hb (by simp)
    · rw [h]
      refine ⟨rfl, rfl, false, rfl, ?_, ?_⟩
      · intro hb
        exact absurd hb (by simp)
      · intro hb
        exact rfl

theorem append_ne_empty (s t : String) (hs : s.data ≠ []) : s ++ t ≠ "" := by
  intro hc
  have h2 := congrArg String.data hc
  rw [String.data_append] at h2
  have h3 : s.data ++ t.data = [] := by simpa using h2
  exact hs (List.append_eq_nil.mp h3).1

theorem json_get_error_ne (j : Json) (k e : String) (h : Json.get j k = Except.error e) :
    e ≠ "" := by
  cases j with
  | obj fields =>
    cases hl : fields.lookup k with
    | some v => rw [Json.get, hl] at h; simp at h
    | none =>
      rw [Json.get, hl] at h
      have he : ("KeyError: " ++ k : String) = e := by injection h
      rw [← he]
      exact append_ne_empty _ _ (by decide)
  | str s =>
    have he : ("TypeError: value is not subscriptable with key " ++ k : String) = e := by
      injection h
    rw [← he]
    exact append_ne_empty _ _ (by decide)
  | num n =>
    have he : ("TypeError: value is not subscriptable with key " ++ k : String) = e := by
      injection h
    rw [← he]
    exact append_ne_empty _ _ (by decide)
  | bool b =>
    have he : ("TypeError: value is not subscriptable with key " ++ k : String) = e := by
      injection h
    rw [← he]
    exact append_ne_empty _ _ (by decide)
  | null =>
    have he : ("TypeError: value is not subscriptable with key " ++ k : String) = e := by
      injection h
    rw [← he]
    exact append_ne_empty _ _ (by decide)
  | arr xs =>
    have he : ("TypeError: value is not subscriptable with key " ++ k : String) = e := by
      injection h
    rw [← he]
    exact append_ne_empty _ _ (by decide)

namespace ImprovedVersionFinal

/-- The remote layer and `json.loads` only ever raise exceptions whose
stringified message is non-empty (true of every exception class the
scripts can encounter; the message content itself is environment data). -/
def envErrorsNonempty (parse : String → Except String Json) (env : FileEnv) : Prop :=
  (∀ a e, env.transcribeAttempt a = Except.error e → e ≠ "") ∧
  (∀ a e, env.analyzeAttempt a = Except.error e → e ≠ "") ∧
  (∀ t e, parse t = Except.error e → e ≠ "")

theorem transcribe_audio_error_src (env : FileEnv) (e : String)
    (h : (transcribe_audio env).1 = Except.error e) :
    ∃ a, env.transcribeAttempt a = Except.error e := by
  have h2 : retryGo (fun a => transcribeOnce (env.transcribeAttempt a)) 1 3 =
      (Except.error e, (retryGo (fun a => transcribeOnce (env.transcribeAttempt a)) 1 3).2) :=
    Prod.ext h rfl
  obtain ⟨a, ha⟩ := retryGo_error_src _ 3 1 e _ h2
  cases hr : env.transcribeAttempt a with
  | error m =>
    rw [hr] at ha
    have hm : m = e := by simpa [transcribeOnce] using ha
    exact ⟨a, by rw [hr, hm]⟩
  | ok t =>
    rw [hr] at ha
    simp [transcribeOnce] at ha

theorem analyze_transcript_error_ne (parse : String → Except String Json) (env : FileEnv)
    (e : String)
    (hta : ∀ a m, env.analyzeAttempt a = Except.error m → m ≠ "")
    (hp : ∀ t m, parse t = Except.error m → m ≠ "")
    (h : (analyze_transcript parse env).1 = Except.error e) : e ≠ "" := by
  have h2 : retryGo (fun a => analyzeOnce parse (env.analyzeAttempt a)) 1 3 =
      (Except.error e, (retryGo (fun a => analyzeOnce parse (env.analyzeAttempt a)) 1 3).2) :=
    Prod.ext h rfl
  obtain ⟨a, ha⟩ := retryGo_error_src _ 3 1 e _ h2
  cases hr : env.analyzeAttempt a with
  | error m =>
    rw [hr] at ha
    have hm : m = e := by simpa [analyzeOnce] using ha
    exact hm ▸ hta a m hr
  | ok t =>
    cases t with
    | none =>
      rw [hr] at ha
      have hm : ("No response text from analysis model" : String) = e := by
        simpa [analyzeOnce] using ha
      rw [← hm]
      decide
    | some s =>
      rw [hr] at ha
      by_cases hs : s = ""
      · rw [show analyzeOnce parse (Except.ok (some s)) =
            Except.error "No response text from analysis model" by
              simp [analyzeOnce, hs]] at ha
        have hm : ("No response text from analysis model" : String) = e := by
          injection ha
        rw [← hm]
        decide
      · rw [show analyzeOnce parse (Except.ok (some s)) = parse s by
          simp [analyzeOnce, hs]] at ha
        exact hp s e ha

theorem process_file_error_ne (parse : String → Except String Json) (env : FileEnv)
    (elapsed : Nat) (path : String) (herr : envErrorsNonempty parse env) (e : String)
    (h : process_file parse env elapsed path = failDict path e elapsed) : e ≠ "" := by
  obtain ⟨ht, ha, hp⟩ := herr
  cases h1 : (transcribe_audio env).1 with
  | error e1 =>
    have hpf : process_file parse env elapsed path = failDict path e1 elapsed := by
      simp [process_file, h1]
    rw [hpf] at h
    have he : e1 = e := by simpa [failDict] using h
    obtain ⟨a, hsrc⟩ := transcribe_audio_error_src env e1 h1
    exact he ▸ ht a e1 hsrc
  | ok t =>
    cases h2 : (analyze_transcript parse env).1 with
    | error e2 =>
      have hpf : process_file parse env elapsed path = failDict path e2 elapsed := by
        simp [process_file, h1, h2]
      rw [hpf] at h
      have he : e2 = e := by simpa [failDict] using h
      exact he ▸ analyze_transcript_error_ne parse env e2 ha hp h2
    | ok j =>
      cases h3 : Json.get j "call_summary" with
      | error e3 =>
        have hpf : process_file parse env elapsed path = failDict path e3 elapsed := by
          simp [process_file, h1, h2, h3]
        rw [hpf] at h
        have he : e3 = e := by simpa [failDict] using h
        exact he ▸ json_get_error_ne j "call_summary" e3 h3
      | ok cs =>
        cases h4 : Json.get j "qa_evaluation" with
        | error e4 =>
          have hpf : process_file parse env elapsed path = failDict path e4 elapsed := by
            simp [process_file, h1, h2, h3, h4]
          rw [hpf] at h
          have he : e4 = e := by simpa [failDict] using h
          exact he ▸ json_get_error_ne j "qa_evaluation" e4 h4
        | ok ev =>
          have hpf : process_file parse env elapsed path = successDict path t cs ev := by
            simp [process_file, h1, h2, h3, h4]
          rw [hpf] at h
          simp [successDict, failDict] at h

theorem mainFolderReport_results (parse : String → Except String Json)
    (envOf : String → FileEnv) (elapsedOf : String → Nat) (files : List String) :
    (mainFolderReport parse envOf elapsedOf files).Results =
      mainProcessAll parse envOf elapsedOf 10 files := rfl

theorem mainFolderRun_some (parse : String → Except String Json) (envOf : String → FileEnv)
    (elapsedOf : String → Nat) (files : List String) (hne : files ≠ []) :
    mainFolderRun parse envOf elapsedOf files =
      some (mainFolderReport parse envOf elapsedOf files) := by
  have hm := mainProcessAll_eq_map parse envOf elapsedOf 10 (by omega) files
  have hEmpty : files.isEmpty = false := by
    cases files with
    | nil => exact absurd rfl hne
    | cons a l => rfl
  have hResEmpty : (mainFolderReport parse envOf elapsedOf files).Results.isEmpty = false := by
    rw [mainFolderReport_results, hm]
    cases files with
    | nil => exact absurd rfl hne
    | cons a l => rfl
  simp [mainFolderRun, hEmpty, hResEmpty]

end ImprovedVersionFinal

/-- Claim C6 (amended): in `ImprovedVersionFinal.py`, for every folder with
at least one discovered audio file the run writes a report containing one
result per discovered file — even when every file failed — with each
failed entry carrying `Success=false` and a non-empty `Error` message
(given that the remote layer's exceptions stringify non-empty); in the
`recentAsPerHuzaifa` variant this guarantee does not hold. -/
theorem claim6_amended_report_always_written (parse : String → Except String Json)
    (envOf : String → ImprovedVersionFinal.FileEnv) (elapsedOf : String → Nat)
    (files : List String) (hne : files ≠ [])
    (herr : ∀ f, ImprovedVersionFinal.envErrorsNonempty parse (envOf f)) :
    ∃ rep, ImprovedVersionFinal.mainFolderRun parse envOf elapsedOf files = some rep ∧
      rep.Results.length = files.length ∧
      ∀ r ∈ rep.Results,
        (∃ b, r.lookup "Success" = some (PyVal.vBool b)) ∧
        (isSuccessTrue r = false →
          ∃ e, r.lookup "Error" = some (PyVal.vStr e) ∧ e ≠ "") := by
  have hm := ImprovedVersionFinal.mainProcessAll_eq_map parse envOf elapsedOf 10 (by omega) files
  refine ⟨ImprovedVersionFinal.mainFolderReport parse envOf elapsedOf files,
    ImprovedVersionFinal.mainFolderRun_some parse envOf elapsedOf files hne, ?_, ?_⟩
  · rw [ImprovedVersionFinal.mainFolderReport_results, hm]
    exact List.length_map _ _
  · rw [ImprovedVersionFinal.mainFolderReport_results, hm]
    intro r hr
    obtain ⟨f, hf, hrf⟩ := List.mem_map.mp hr
    rcases ImprovedVersionFinal.process_file_shape parse (envOf f) (elapsedOf f) f with
      ⟨t, cs, ev, hsh⟩ | ⟨e, hsh⟩
    · rw [← hrf, hsh]
      refine ⟨⟨true, rfl⟩, ?_⟩
      intro hfalse
      rw [ImprovedVersionFinal.isSuccessTrue_successDict] at hfalse
      exact absurd hfalse (by simp)
    · rw [← hrf, hsh]
      refine ⟨⟨false, rfl⟩, ?_⟩
      intro _
      exact ⟨e, rfl,
        ImprovedVersionFinal.process_file_error_ne parse (envOf f) (elapsedOf f) f
          (herr f) e hsh⟩

/-- Environment in which every transcription attempt fails with a fixed
non-empty message. -/
def envOfAllFail : String → ImprovedVersionFinal.FileEnv := fun _ =>
  { transcribeAttempt := fun _ => Except.error "429 Resource has been exhausted"
    analyzeAttempt := fun _ => Except.error "429 Resource has been exhausted" }

theorem claim6_amended_report_always_written_witness :
    ∃ rep, ImprovedVersionFinal.mainFolderRun genericParseOk envOfAllFail genericElapsed
        ["test/Q/f1.wav"] = some rep ∧
      rep.Results.length = (["test/Q/f1.wav"] : List String).length ∧
      ∀ r ∈ rep.Results,
        (∃ b, r.lookup "Success" = some (PyVal.vBool b)) ∧
        (isSuccessTrue r = false →
          ∃ e, r.lookup "Error" = some (PyVal.vStr e) ∧ e ≠ "") :=
  claim6_amended_report_always_written genericParseOk envOfAllFail genericElapsed
    ["test/Q/f1.wav"] (by simp)
    (fun f =>
      ⟨fun a e h => by
          have he : ("429 Resource has been exhausted" : String) = e := by injection h
          rw [← he]
          decide,
        fun a e h => by
          have he : ("429 Resource has been exhausted" : String) = e := by injection h
          rw [← he]
          decide,
        fun t e h => by
          simp [genericParseOk] at h⟩)

/-- Environment of the `recentAsPerHuzaifa` variant in which every
analysis response is text that fails JSON decoding. -/
def envOfBadJsonAlways : String → RecentAsPerHuzaifa.HuzEnv := fun p =>
  { upload := Except.ok (some { displayName := basename p, fname := "files/remote" })
    generate := Except.ok (some "notjson")
    deleteFile := Except.ok () }

/-- Claim C6 counterexample: in `recentAsPerHuzaifa-upgraded.py`, a folder
whose single discovered file fails JSON decoding on the first pass, the
in-function retry and the `__main__` retry ends the run with an empty
output list, so `organize_output_by_folders` produces no folder group and
`save_output` writes no report for that folder — the run completes but no
report is written for a folder that had one discovered file. -/
theorem claim6_counterexample :
    RecentAsPerHuzaifa.huzFullRun parseRejectAll envOfBadJsonAlways ["test/A/a.wav"] =
      some [] ∧
    (["test/A/a.wav"] : List String).length = 1 :=
  ⟨rfl, rfl⟩

/-- The file name under which `main` saves a folder report, as a function
of the folder's basename. -/
def reportFileName (s : String) : String :=
  "output/" ++ s ++ ".json"

theorem reportFileName_inj : Function.Injective reportFileName := by
  intro a b h
  have hd := congrArg String.data h
  simp only [reportFileName, String.data_append, List.append_assoc] at hd
  have h1 := List.append_cancel_left hd
  have h2 := List.append_cancel_right h1
  exact String.ext h2

namespace ImprovedVersionFinal

theorem outputPath_eq_reportFileName (d : String) :
    outputPath d = reportFileName (basename d) := rfl

theorem mainRunWrites_paths (parse : String → Except String Json) (envOf : String → FileEnv)
    (elapsedOf : String → Nat) (filesOf : String → List String) :
    ∀ subdirs : List String,
      (mainRunWrites parse envOf elapsedOf filesOf subdirs).map Prod.fst =
        (subdirs.filter (fun d => !((filesOf d).isEmpty))).map outputPath := by
  intro subdirs
  induction subdirs with
  | nil => rfl
  | cons d rest ih =>
    cases hE : (filesOf d).isEmpty with
    | true =>
      have hnil : filesOf d = [] := List.isEmpty_iff.mp hE
      have h1 : mainFolderRun parse envOf elapsedOf (filesOf d) = none := by
        rw [hnil]
        rfl
      simp only [mainRunWrites, List.filterMap_cons, h1, Option.map_none', List.filter_cons,
        hE, Bool.not_true, Bool.false_eq_true, if_false]
      exact ih
    | false =>
      have hne : filesOf d ≠ [] := by
        intro hc
        rw [hc] at hE
        simp at hE
      have h1 := mainFolderRun_some parse envOf elapsedOf (filesOf d) hne
      simp only [mainRunWrites, List.filterMap_cons, h1, Option.map_some', List.filter_cons,
        hE, Bool.not_false, if_true, List.map_cons]
      exact congrArg (outputPath d :: ·) ih

end ImprovedVersionFinal

/-- Claim C9 (amended): during one run of `main`, each processed folder
with discovered files produces exactly one report write, in folder order,
to `output/{basename}.json`; as long as the processed folders have
pairwise distinct basenames, no report file is ever written twice (so no
report of one folder overwrites that of another).  Folders sharing a
basename, however, collide on the same output file. -/
theorem claim9_write_once (parse : String → Except String Json)
    (envOf : String → ImprovedVersionFinal.FileEnv) (elapsedOf : String → Nat)
    (filesOf : String → List String) (subdirs : List String)
    (hnd : (subdirs.map basename).Nodup) :
    (ImprovedVersionFinal.mainRunWrites parse envOf elapsedOf filesOf subdirs).map Prod.fst =
      (subdirs.filter (fun d => !((filesOf d).isEmpty))).map
        ImprovedVersionFinal.outputPath ∧
    ((ImprovedVersionFinal.mainRunWrites parse envOf elapsedOf filesOf subdirs).map
      Prod.fst).Nodup := by
  refine ⟨ImprovedVersionFinal.mainRunWrites_paths parse envOf elapsedOf filesOf subdirs, ?_⟩
  rw [ImprovedVersionFinal.mainRunWrites_paths parse envOf elapsedOf filesOf subdirs]
  have hnd2 : ((subdirs.filter (fun d => !((filesOf d).isEmpty))).map basename).Nodup :=
    List.Nodup.sublist (List.Sublist.map basename (List.filter_sublist subdirs)) hnd
  have hcomp : (subdirs.filter (fun d => !((filesOf d).isEmpty))).map
      ImprovedVersionFinal.outputPath =
      ((subdirs.filter (fun d => !((filesOf d).isEmpty))).map basename).map reportFileName := by
    rw [List.map_map]
    rfl
  rw [hcomp]
  exact List.Nodup.map reportFileName_inj hnd2

/-- One discovered audio file per folder. -/
def filesOfOne : String → List String := fun d => [d ++ "/one.wav"]

theorem claim9_write_once_witness :
    ((ImprovedVersionFinal.mainRunWrites genericParseOk genericEnvOk genericElapsed
      filesOfOne ["root/a", "root/b"]).map Prod.fst).Nodup :=
  (claim9_write_once genericParseOk genericEnvOk genericElapsed filesOfOne
    ["root/a", "root/b"] (by decide)).2

/-- Claim C9 counterexample: two distinct folders whose basenames coincide
are both saved to `output/calls.json` — the second write overwrites the
report already written for the first folder. -/
theorem claim9_counterexample :
    (ImprovedVersionFinal.mainRunWrites genericParseOk genericEnvOk genericElapsed
      filesOfOne ["root/a/calls", "root/b/calls"]).map Prod.fst =
      ["output/calls.json", "output/calls.json"] ∧
    ("root/a/calls" : String) ≠ "root/b/calls" :=
  ⟨rfl, by decide⟩

theorem claim10_result_shape_witness :
    (ImprovedVersionFinal.process_file genericParseOk (genericEnvOk "w/c.wav") 3
      "w/c.wav").lookup "FileName" = some (PyVal.vStr (basename "w/c.wav")) ∧
    (ProcessAudioTranscribe.process_file genericParseOk patEnvOk "w/c.wav").lookup
      "FileName" = some (PyVal.vStr (basename "w/c.wav")) :=
  ⟨(claim10_result_shape genericParseOk (genericEnvOk "w/c.wav") patEnvOk 3 "w/c.wav").1.1,
   (claim10_result_shape genericParseOk (genericEnvOk "w/c.wav") patEnvOk 3 "w/c.wav").2.1⟩
